import Mathlib

/-!
Verification of the cdevents webhook adapter.

This file is a shallow embedding of the adapter's message-processing
pipeline (`internal/adapter/adapter.go`, method `Process`) and of the four
Gitea payload translators (`internal/translator`), together with theorems
about the routing, acknowledgment, translation and source-derivation
behaviour.

Modelling conventions:
* The translators operate on the already-deserialized Gitea payload
  structs.  The `internal/structs` package is not among the sources; its
  field shapes are modelled from the spec's data model and from the JSON
  payloads in the translator tests (`total_commits`, `commits[].id`,
  `head_commit`, `repository.full_name`, `repository.html_url`,
  `action`, `pull_request.id`, `ref`, `ref_type`).
* `Process` is parameterized over the behaviour of the standard-library
  call `json.Unmarshal(msg.Data(), &map[string]interface{})`
  (`jsonUnmarshalMapErr`) and over the registry and publisher, exactly
  the collaborators the Go code receives; a `ProcessTrace` records the
  return value together with the observable effects: which translator was
  invoked with which payload, what was published, and whether `Ack` was
  invoked (the Go code runs `defer msg.Ack()` as its first statement).
* `urlParse`, `urlJoinPath`, `pathCleanChars` model the standard-library
  functions `net/url.Parse`, `net/url.JoinPath` and `path.Clean` used by
  the shared helper `addSourcesFromRepositoryUrl`, restricted to URLs
  without user info, queries and fragments beyond splitting them off.
  The model does not reproduce `net/url`'s percent-escape handling
  (escape validation and unescaping on parse, re-escaping on `String()`)
  or its host-character validation; every theorem whose conclusion
  depends on the URL model therefore restricts hosts and path segments
  to unreserved characters (`goodUrlChar`: ASCII alphanumerics and
  `-`, `_`, `.`, `~`), on which the library performs no escaping,
  unescaping or rejection, so model and library agree there.
  Go's index-out-of-range panic on `Commits[0]` is modelled by the
  dedicated result constructor `TransResult.indexOutOfRange`.
-/

/-! ### Character classes and scanning primitives for the `net/url` model -/

/-- ASCII control characters, as rejected by `net/url.Parse`
("net/url: invalid control character in URL"). -/
def isCtlChar (c : Char) : Bool := c.toNat < 32 || c.toNat == 127

/-- ASCII letters. -/
def isAlphaChar (c : Char) : Bool := ('a' ≤ c && c ≤ 'z') || ('A' ≤ c && c ≤ 'Z')

/-- ASCII digits. -/
def isDigitChar (c : Char) : Bool := '0' ≤ c && c ≤ '9'

/-- Characters allowed inside a URL scheme after the first letter. -/
def isSchemeExtraChar (c : Char) : Bool := isDigitChar c || c == '+' || c == '-' || c == '.'

/-- Splits a character list at the first character satisfying `q`:
returns the longest q-free front together with the rest (which starts
with the first hit, when there is one).  This is the common core of the
`strings.Split`-style cutting done by `net/url`. -/
def breakAt (q : Char → Bool) : List Char → List Char × List Char
  | [] => ([], [])
  | c :: cs =>
    if q c then ([], c :: cs)
    else
      let r := breakAt q cs
      (c :: r.1, r.2)

/-- Model of `net/url`'s `getScheme`: scans for `scheme:`, returning
`none` when the URL has no scheme, `some (scheme, rest)` when it has one,
and the Go error when the URL starts with `:`. -/
def getSchemeAux (acc : List Char) : List Char → Except String (Option (List Char × List Char))
  | [] => .ok none
  | c :: cs =>
    if isAlphaChar c then getSchemeAux (acc.concat c) cs
    else if isSchemeExtraChar c then
      if acc.isEmpty then .ok none else getSchemeAux (acc.concat c) cs
    else if c = ':' then
      if acc.isEmpty then .error "missing protocol scheme" else .ok (some (acc, cs))
    else .ok none

/-! ### The URL model -/

/-- Result of `net/url.Parse`, restricted to the components the adapter
reads (`Host`, `Path`) plus the scheme and the Go `Opaque` component,
which steer parsing and printing. -/
structure GoURL where
  scheme : String
  opq : String
  host : String
  path : String
deriving DecidableEq

/-- Whether the list starts with two slashes (`strings.HasPrefix(rest, "//")`). -/
def hasSlash2 (l : List Char) : Bool := l.head? == some '/' && l.tail.head? == some '/'

/-- Whether the list starts with three slashes. -/
def hasSlash3 (l : List Char) : Bool := hasSlash2 l && l.tail.tail.head? == some '/'

/-- Core of the `net/url.Parse` model after the scheme and the query
have been split off: the opaque case, the rootless-colon error, the
authority case and the plain-path case, in the order of Go's `parse`. -/
def urlParseNoQuery (scheme rest : List Char) : Except String GoURL :=
  if rest.head? ≠ some '/' ∧ scheme ≠ [] then
    .ok { scheme := ⟨scheme⟩, opq := ⟨rest⟩, host := "", path := "" }
  else if rest.head? ≠ some '/' ∧ ((breakAt (fun c => c == '/') rest).1).any (fun c => c == ':') = true then
    .error "first path segment in URL cannot contain colon"
  else if (scheme ≠ [] ∨ ¬ hasSlash3 rest = true) ∧ hasSlash2 rest = true then
    let afterSlashes := rest.tail.tail
    let authority := (breakAt (fun c => c == '/') afterSlashes).1
    .ok { scheme := ⟨scheme⟩, opq := "",
          host := ⟨((breakAt (fun c => c == '@') authority.reverse).1).reverse⟩,
          path := ⟨(breakAt (fun c => c == '/') afterSlashes).2⟩ }
  else
    .ok { scheme := ⟨scheme⟩, opq := "", host := "", path := ⟨rest⟩ }

/-- Splits off the query (everything from the first `?` on). -/
def urlParseRest (scheme rest0 : List Char) : Except String GoURL :=
  urlParseNoQuery scheme (breakAt (fun c => c == '?') rest0).1

/-- Control-character check and scheme detection. -/
def urlParseAfterFrag (raw : List Char) : Except String GoURL :=
  if raw.any isCtlChar then .error "net/url: invalid control character in URL"
  else
    match getSchemeAux [] raw with
    | .error e => .error e
    | .ok none => urlParseRest [] raw
    | .ok (some (sch, rest)) => urlParseRest (sch.map Char.toLower) rest

/-- Model of `net/url.Parse` (fragment split off first, as in Go). -/
def urlParseChars (s : List Char) : Except String GoURL :=
  urlParseAfterFrag (breakAt (fun c => c == '#') s).1

/-- Model of `net/url.Parse` on strings. -/
def urlParse (s : String) : Except String GoURL := urlParseChars s.data

/-! ### Path cleaning (`path.Clean` / `path.Join`) -/

/-- Splits a character list into its `sep`-separated segments; splitting
the empty list yields one empty segment.  This is `strings.Split` with a
one-character separator, at the character level. -/
def splitSegs (sep : Char) : List Char → List (List Char)
  | [] => [[]]
  | c :: cs =>
    if c = sep then [] :: splitSegs sep cs
    else
      match splitSegs sep cs with
      | s :: ss => (c :: s) :: ss
      | [] => [[c]]

/-- Joins segments back with `sep` (`strings.Join` with a one-character
separator, at the character level). -/
def joinSegs (sep : Char) : List (List Char) → List Char
  | [] => []
  | [s] => s
  | s :: ss => s ++ sep :: joinSegs sep ss

/-- Segment-level core of `path.Clean`: drops empty and `.` segments and
resolves `..` against the processed prefix (popping where possible,
disappearing at the root, accumulating in relative paths). -/
def cleanSegsAux (rooted : Bool) (acc : List (List Char)) : List (List Char) → List (List Char)
  | [] => acc.reverse
  | s :: rest =>
    if s = [] ∨ s = ['.'] then cleanSegsAux rooted acc rest
    else if s = ['.', '.'] then
      match acc with
      | [] => if rooted then cleanSegsAux rooted [] rest else cleanSegsAux rooted [['.', '.']] rest
      | a :: as =>
        if a = ['.', '.'] then cleanSegsAux rooted (['.', '.'] :: a :: as) rest
        else cleanSegsAux rooted as rest
    else cleanSegsAux rooted (s :: acc) rest

/-- Model of `path.Clean` on character lists. -/
def pathCleanChars (p : List Char) : List Char :=
  if p = [] then ['.']
  else
    let rooted := p.head? = some '/'
    let out := joinSegs '/' (cleanSegsAux (decide rooted) [] (splitSegs '/' p))
    if rooted then (if out = [] then ['/'] else '/' :: out)
    else (if out = [] then ['.'] else out)

/-- Model of `path.Join` on character lists: skips leading empty
elements, joins the rest with `/` and cleans the result. -/
def pathJoinChars : List (List Char) → List Char
  | [] => []
  | [] :: rest => pathJoinChars rest
  | e :: rest => pathCleanChars (joinSegs '/' (e :: rest))

/-! ### `URL.String` and `url.JoinPath` -/

/-- Model of `URL.String()` for URLs without user info, query and
fragment: scheme, opaque or `//host`, the slash inserted between a host
and a rootless path, the `./` guard for a rootless first segment with a
colon, then the path. -/
def urlString (u : GoURL) : String :=
  let start := if u.scheme ≠ "" then u.scheme.data ++ [':'] else []
  if u.opq ≠ "" then ⟨start ++ u.opq.data⟩
  else
    let withHost :=
      if u.scheme ≠ "" ∨ u.host ≠ "" then
        (if u.host ≠ "" ∨ u.path ≠ "" then start ++ ['/', '/'] else start) ++ u.host.data
      else start
    let withSlash :=
      if u.path ≠ "" ∧ u.path.data.head? ≠ some '/' ∧ u.host ≠ "" then withHost ++ ['/']
      else withHost
    let out :=
      if withSlash = [] ∧ ((breakAt (fun c => c == '/') u.path.data).1).any (fun c => c == ':') = true then
        withSlash ++ ['.', '/']
      else withSlash
    ⟨out ++ u.path.data⟩

/-- Model of `net/url.JoinPath(base, elem)` with a single element:
parse the base, join the paths with `path.Join` (prefixing `/` and
dropping it again for a relative base), restore a trailing slash from
the last element, and print the resulting URL. -/
def urlJoinPath (base : String) (elem : String) : Except String String :=
  match urlParse base with
  | .error e => .error e
  | .ok u =>
    let p :=
      if ¬ u.path.data.head? = some '/' then
        ⟨(pathJoinChars [('/' :: u.path.data), elem.data]).drop 1⟩
      else
        (⟨pathJoinChars [u.path.data, elem.data]⟩ : String)
    let p : String :=
      if elem.data.getLast? = some '/' ∧ ¬ p.data.getLast? = some '/' then ⟨p.data ++ ['/']⟩ else p
    .ok (urlString { u with path := p })

/-! ### Gitea payload structs

Modelled from the spec: the `internal/structs` package is not among the
sources; the fields below are the ones the translators read, with shapes
taken from the spec's data model and the JSON payloads in the translator
tests. -/

/-- Repository block of a Gitea webhook payload (`full_name`, `html_url`). -/
structure GiteaRepository where
  fullName : String
  htmlUrl : String
deriving DecidableEq

/-- One commit of a Gitea push payload (`id`). -/
structure GiteaCommit where
  id : String
deriving DecidableEq

/-- Gitea push webhook payload (`total_commits`, `commits`, `head_commit`,
`repository`). -/
structure GiteaPushEvent where
  totalCommits : Int
  commits : List GiteaCommit
  headCommit : GiteaCommit
  repository : GiteaRepository
deriving DecidableEq

/-- Pull-request block of a Gitea pull-request payload (`id`). -/
structure GiteaPullRequest where
  id : Int
deriving DecidableEq

/-- Gitea pull-request webhook payload (`action`, `pull_request`, `repository`). -/
structure GiteaPullRequestEvent where
  action : String
  pullRequest : GiteaPullRequest
  repository : GiteaRepository
deriving DecidableEq

/-- Gitea create webhook payload (`ref`, `ref_type`, `repository`). -/
structure GiteaCreateEvent where
  ref : String
  refType : String
  repository : GiteaRepository
deriving DecidableEq

/-- Gitea delete webhook payload (`ref`, `ref_type`, `repository`). -/
structure GiteaDeleteEvent where
  ref : String
  refType : String
  repository : GiteaRepository
deriving DecidableEq

/-- The `giteaEvent interface{}` argument passed to the shared helpers:
one of the four payload structs, tagged. -/
inductive GiteaEventTagged where
  | push (e : GiteaPushEvent)
  | pullRequest (e : GiteaPullRequestEvent)
  | create (e : GiteaCreateEvent)
  | delete (e : GiteaDeleteEvent)
deriving DecidableEq

/-- The `%T` type name Go prints for each payload struct, used as the
custom-data kind discriminator. -/
def goTypeName : GiteaEventTagged → String
  | .push _ => "structs.GiteaPushEvent"
  | .pullRequest _ => "structs.GiteaPullRequestEvent"
  | .create _ => "structs.GiteaCreateEvent"
  | .delete _ => "structs.GiteaDeleteEvent"

/-- The repository URL the shared helper extracts from each payload kind
(the type switch in `addSourcesFromRepositoryUrl`). -/
def GiteaEventTagged.repoHtmlUrl : GiteaEventTagged → String
  | .push e => e.repository.htmlUrl
  | .pullRequest e => e.repository.htmlUrl
  | .create e => e.repository.htmlUrl
  | .delete e => e.repository.htmlUrl

/-! ### The canonical CDEvent model -/

/-- The event variants the translators emit. -/
inductive CDEventType where
  | changeCreated
  | changeMerged
  | branchCreated
  | branchDeleted
deriving DecidableEq

/-- Custom-data block attached to an event: either a raw payload
(`SetCustomData("application/json", giteaEvent)`) or the kind-tagged
wrapper built by `addGiteaEventAsCustomData`. -/
inductive CustomDataValue where
  | plain (content : GiteaEventTagged)
  | kindTagged (kind : String) (content : GiteaEventTagged)
deriving DecidableEq

/-- Canonical event, with the attributes the translators set.  A freshly
constructed event (`NewChangeMergedEvent` and friends) has the default
empty attributes. -/
structure CDEvent where
  eventType : CDEventType
  source : String := ""
  subjectId : String := ""
  subjectSource : String := ""
  subjectRepositoryId : Option String := none
  customData : Option CustomDataValue := none
deriving DecidableEq

/-- Outcome of a translator call: a produced event, a returned error, or
the Go runtime panic on an out-of-range index. -/
inductive TransResult (α : Type) where
  | ok (event : α)
  | err (msg : String)
  | indexOutOfRange
deriving DecidableEq

/-! ### Shared translator helpers -/

/-- Model of `addSourcesFromRepositoryUrl`: parse the repository URL,
set `source` to its host, then set `subjectSource` to
`url.JoinPath(host, path)`.  The Go callers ignore the returned error,
so a failure leaves the remaining fields as they were; mutations made
before the failure persist. -/
def addSourcesFromRepositoryUrl (giteaEvent : GiteaEventTagged) (cdEvent : CDEvent) : CDEvent :=
  match urlParse giteaEvent.repoHtmlUrl with
  | .error _ => cdEvent
  | .ok repoUrl =>
    let cdEvent := { cdEvent with source := repoUrl.host }
    match urlJoinPath repoUrl.host repoUrl.path with
    | .error _ => cdEvent
    | .ok subjectSource => { cdEvent with subjectSource := subjectSource }

/-- Model of `addGiteaEventAsCustomData`: attaches the payload wrapped
with its `%T` kind.  `SetCustomData` with content type
`application/json` does not fail, so the result is always `.ok`. -/
def addGiteaEventAsCustomData (giteaEvent : GiteaEventTagged) (cdEvent : CDEvent) : Except String CDEvent :=
  .ok { cdEvent with customData := some (.kindTagged (goTypeName giteaEvent) giteaEvent) }

/-- The (source, subjectSource) pair produced by the shared helper on a
fresh event, as a function of the repository URL alone: parse failure
leaves both empty, a join failure leaves only the source set. -/
def derivedSources (rawUrl : String) : String × String :=
  match urlParse rawUrl with
  | .error _ => ("", "")
  | .ok u =>
    match urlJoinPath u.host u.path with
    | .error _ => (u.host, "")
    | .ok ss => (u.host, ss)

/-! ### The four translators -/

/-- Model of `GiteaPushTranslator.Translate` on the deserialized
payload.  The only guard before the `Commits[0]` access is
`TotalCommits == 0`; with a non-zero `total_commits` and an empty
commits list the Go code panics with an index-out-of-range error,
modelled by `TransResult.indexOutOfRange`. -/
def GiteaPushTranslator.translate (giteaEvent : GiteaPushEvent) : TransResult CDEvent :=
  if giteaEvent.totalCommits = 0 then
    .err "Push event contains no new commits, will not convert to a CD Event"
  else
    match giteaEvent.commits with
    | [] => .indexOutOfRange
    | firstCommit :: _ =>
      let cdEvent : CDEvent := { eventType := .changeMerged }
      let cdEvent := addSourcesFromRepositoryUrl (.push giteaEvent) cdEvent
      let cdEvent := { cdEvent with subjectId := firstCommit.id }
      let cdEvent := { cdEvent with subjectRepositoryId := some giteaEvent.repository.fullName }
      match addGiteaEventAsCustomData (.push giteaEvent) cdEvent with
      | .error e => .err e
      | .ok cdEvent => .ok cdEvent

/-- Model of `GiteaPullRequestTranslator.Translate`: `opened` selects a
change-created event, `closed` a change-merged event, anything else is
the unsupported-action error; the subject id is `pr-<id>`. -/
def GiteaPullRequestTranslator.translate (giteaEvent : GiteaPullRequestEvent) : TransResult CDEvent :=
  match
    (if giteaEvent.action = "opened" then
      .ok { eventType := .changeCreated, subjectRepositoryId := some giteaEvent.repository.fullName }
     else if giteaEvent.action = "closed" then
      .ok { eventType := .changeMerged, subjectRepositoryId := some giteaEvent.repository.fullName }
     else
      .error ("unsupported Gitea Pull Request action: " ++ giteaEvent.action) : Except String CDEvent)
  with
  | .error e => .err e
  | .ok cdEvent0 =>
    let cdEvent := addSourcesFromRepositoryUrl (.pullRequest giteaEvent) cdEvent0
    let cdEvent := { cdEvent with subjectId := "pr-" ++ toString giteaEvent.pullRequest.id }
    let cdEvent := { cdEvent with customData := some (.plain (.pullRequest giteaEvent)) }
    match addGiteaEventAsCustomData (.pullRequest giteaEvent) cdEvent with
    | .error e => .err e
    | .ok cdEvent => .ok cdEvent

/-- Model of `GiteaCreateTranslator.Translate`: `ref_type: branch`
yields a branch-created event with the ref as subject id; any other ref
type is the unsupported-ref-type error. -/
def GiteaCreateTranslator.translate (giteaEvent : GiteaCreateEvent) : TransResult CDEvent :=
  match
    (if giteaEvent.refType = "branch" then
      .ok { eventType := .branchCreated, subjectRepositoryId := some giteaEvent.repository.fullName }
     else
      .error ("unsupported Gitea create ref type: " ++ giteaEvent.refType) : Except String CDEvent)
  with
  | .error e => .err e
  | .ok cdEvent0 =>
    let cdEvent := addSourcesFromRepositoryUrl (.create giteaEvent) cdEvent0
    let cdEvent := { cdEvent with subjectId := giteaEvent.ref }
    let cdEvent := { cdEvent with customData := some (.plain (.create giteaEvent)) }
    match addGiteaEventAsCustomData (.create giteaEvent) cdEvent with
    | .error e => .err e
    | .ok cdEvent => .ok cdEvent

/-- Model of `GiteaDeleteTranslator.Translate`: `ref_type: branch`
yields a branch-deleted event with the ref as subject id; any other ref
type is the (ditto-worded) unsupported-ref-type error.  Unlike the
create translator it does not attach the raw payload separately. -/
def GiteaDeleteTranslator.translate (giteaEvent : GiteaDeleteEvent) : TransResult CDEvent :=
  match
    (if giteaEvent.refType = "branch" then
      .ok { eventType := .branchDeleted, subjectRepositoryId := some giteaEvent.repository.fullName }
     else
      .error ("unsupported Gitea create ref type: " ++ giteaEvent.refType) : Except String CDEvent)
  with
  | .error e => .err e
  | .ok cdEvent0 =>
    let cdEvent := addSourcesFromRepositoryUrl (.delete giteaEvent) cdEvent0
    let cdEvent := { cdEvent with subjectId := giteaEvent.ref }
    match addGiteaEventAsCustomData (.delete giteaEvent) cdEvent with
    | .error e => .err e
    | .ok cdEvent => .ok cdEvent

/-! ### The message processor -/

/-- Delivery metadata of a JetStream message (`jetstream.MsgMetadata`),
used only for the structured log lines. -/
structure MsgMetadata where
  streamSeq : Nat
  consumerSeq : Nat
  numDelivered : Nat
  stream : String
  consumer : String
deriving DecidableEq

/-- Inbound message as seen through the `JetstreamMsg` interface:
payload bytes, routing subject, and the (fallible) result of its
`Metadata()` call. -/
structure JetstreamMsg (D : Type) where
  subject : String
  data : D
  metadataResult : Except String MsgMetadata

/-- Observable outcome of one `Process` call: the returned error (Go
returns `nil` or an error value), each translator invocation as a
(routing key, payload) pair, each published event, and whether `Ack`
was invoked on the message. -/
structure ProcessTrace (D E : Type) where
  result : Option String
  translateCalls : List (String × D)
  publishCalls : List E
  acked : Bool
deriving DecidableEq

/-- The adapter's collaborators: the translator registry (an immutable
map from routing key to translator) and the publisher. -/
structure CDEventAdapter (D E : Type) where
  translators : String → Option (D → Except String E)
  publisher : E → Option String

/-- The `strings.Split(msg.Subject(), ".")` of the routing subject, as
character-level segments. -/
def subjectParts (subject : String) : List (List Char) := splitSegs '.' subject.data

/-- Routing key: the routing subject with its first dot-separated
segment dropped and the remainder rejoined with `.`
(`strings.Join(subjectParts[1:], ".")`). -/
def routingKey (subject : String) : String :=
  ⟨joinSegs '.' ((subjectParts subject).drop 1)⟩

/-- Model of `CDEventAdapter.Process`.  `jsonUnmarshalMapErr` gives the
behaviour of the standard-library call
`json.Unmarshal(msg.Data(), &map[string]interface{})` on the payload
(`none` for success).  The steps, in source order: deferred `Ack` (so
every path acknowledges), metadata extraction, the JSON validity check,
the subject split, the registry lookup, translation, publication. -/
def CDEventAdapter.process {D E : Type} (jsonUnmarshalMapErr : D → Option String)
    (adapter : CDEventAdapter D E) (msg : JetstreamMsg D) : ProcessTrace D E :=
  match msg.metadataResult with
  | .error err => { result := some err, translateCalls := [], publishCalls := [], acked := true }
  | .ok _ =>
    match jsonUnmarshalMapErr msg.data with
    | some err => { result := some err, translateCalls := [], publishCalls := [], acked := true }
    | none =>
      if (subjectParts msg.subject).length < 2 then
        { result := some ("unable to determine type of message as subject has to few parts: " ++ msg.subject),
          translateCalls := [], publishCalls := [], acked := true }
      else
        match adapter.translators (routingKey msg.subject) with
        | none =>
          { result := some ("no translator found for subject: " ++ routingKey msg.subject),
            translateCalls := [], publishCalls := [], acked := true }
        | some tr =>
          match tr msg.data with
          | .error err =>
            { result := some err, translateCalls := [(routingKey msg.subject, msg.data)],
              publishCalls := [], acked := true }
          | .ok cdEvent =>
            match adapter.publisher cdEvent with
            | some err =>
              { result := some err, translateCalls := [(routingKey msg.subject, msg.data)],
                publishCalls := [cdEvent], acked := true }
            | none =>
              { result := none, translateCalls := [(routingKey msg.subject, msg.data)],
                publishCalls := [cdEvent], acked := true }

/-! ### Well-formedness predicates for repository URLs -/

/-- A path segment that `path.Clean` keeps unchanged: non-empty and not
a dot segment. -/
def goodSeg (s : List Char) : Bool := !s.isEmpty && !(s == ['.']) && !(s == ['.', '.'])

/-- Unreserved URL characters (RFC 3986, section 2.3): ASCII letters,
digits and `-`, `_`, `.`, `~`.  `net/url` never percent-escapes these in
any encoding mode, never rejects them during host validation, and they
include no `%`, so on hosts and path segments made of them parsing,
unescaping and re-escaping are all the identity and the model above
agrees with the library (whose escape handling and host-character
validation the model does not reproduce).  The control-character
conjunct is redundant for this set but recorded for direct use in the
parse lemmas. -/
def goodUrlChar (c : Char) : Bool :=
  !isCtlChar c &&
    (isAlphaChar c || isDigitChar c || c == '-' || c == '_' || c == '.' || c == '~')

/-- A plain URL host: a single clean segment of unreserved characters. -/
def goodHostStr (s : String) : Bool := goodSeg s.data && s.data.all goodUrlChar

/-- A plain, already-clean repository path (without its leading slash):
every `/`-separated segment clean and made of unreserved characters, and
no trailing slash. -/
def goodPathStr (s : String) : Bool :=
  (splitSegs '/' s.data).all (fun seg => goodSeg seg && seg.all goodUrlChar) &&
    !(s.data.getLast? == some '/')

/-! ### Lemmas about the scanning primitives -/

theorem breakAt_cons_pos {q : Char → Bool} {c : Char} (r : List Char) (h : q c = true) :
    breakAt q (c :: r) = ([], c :: r) := by
  simp [breakAt, h]

theorem breakAt_append_all {q : Char → Bool} {l : List Char} (r : List Char)
    (h : l.all (fun c => !q c) = true) :
    breakAt q (l ++ r) = (l ++ (breakAt q r).1, (breakAt q r).2) := by
  induction l with
  | nil => simp
  | cons c cs ih =>
    simp only [List.all_cons, Bool.and_eq_true, Bool.not_eq_true'] at h
    simp only [List.cons_append, breakAt, h.1, Bool.false_eq_true, if_false, List.append_eq]
    rw [ih h.2]

theorem breakAt_all {q : Char → Bool} {l : List Char} (h : l.all (fun c => !q c) = true) :
    breakAt q l = (l, []) := by
  have := breakAt_append_all (q := q) (l := l) [] h
  simpa [breakAt] using this

theorem head?_ne_of_all {a : Char} {l : List Char} (h : l.all (fun c => !(c == a)) = true) :
    l.head? ≠ some a := by
  cases l with
  | nil => simp
  | cons c cs =>
    simp only [List.all_cons, Bool.and_eq_true, Bool.not_eq_true', beq_eq_false_iff_ne] at h
    simpa using h.1

theorem getSchemeAux_no_colon (acc : List Char) {l : List Char}
    (h : l.all (fun c => !(c == ':')) = true) :
    getSchemeAux acc l = .ok none := by
  induction l generalizing acc with
  | nil => simp [getSchemeAux]
  | cons c cs ih =>
    simp only [List.all_cons, Bool.and_eq_true, Bool.not_eq_true', beq_eq_false_iff_ne] at h
    by_cases ha : isAlphaChar c = true
    · simp only [getSchemeAux, ha, if_true]
      exact ih _ h.2
    · by_cases hb : isSchemeExtraChar c = true
      · simp only [getSchemeAux, ha, hb, if_true, if_false]
        by_cases he : acc.isEmpty
        · simp [he]
        · simp only [he, if_false]
          exact ih _ h.2
      · simp [getSchemeAux, ha, hb, h.1]

/-! ### Lemmas about segment splitting and joining -/

theorem splitSegs_ne_nil (sep : Char) (l : List Char) : splitSegs sep l ≠ [] := by
  cases l with
  | nil => simp [splitSegs]
  | cons c cs =>
    simp only [splitSegs]
    split
    · simp
    · split <;> simp

theorem splitSegs_append_all {sep : Char} {l : List Char} (r : List Char)
    (h : l.all (fun c => !(c == sep)) = true) :
    splitSegs sep (l ++ sep :: r) = l :: splitSegs sep r := by
  induction l with
  | nil => simp [splitSegs]
  | cons c cs ih =>
    simp only [List.all_cons, Bool.and_eq_true, Bool.not_eq_true', beq_eq_false_iff_ne] at h
    simp only [List.cons_append, splitSegs, h.1, if_false, List.append_eq, ih h.2]

theorem splitSegs_all {sep : Char} {l : List Char} (h : l.all (fun c => !(c == sep)) = true) :
    splitSegs sep l = [l] := by
  induction l with
  | nil => simp [splitSegs]
  | cons c cs ih =>
    simp only [List.all_cons, Bool.and_eq_true, Bool.not_eq_true', beq_eq_false_iff_ne] at h
    simp only [splitSegs, h.1, if_false, ih h.2]

theorem joinSegs_cons_cons (sep : Char) (s t : List Char) (ss : List (List Char)) :
    joinSegs sep (s :: t :: ss) = s ++ sep :: joinSegs sep (t :: ss) := by
  simp [joinSegs]

theorem joinSegs_splitSegs (sep : Char) (l : List Char) :
    joinSegs sep (splitSegs sep l) = l := by
  induction l with
  | nil => simp [splitSegs, joinSegs]
  | cons c cs ih =>
    simp only [splitSegs]
    by_cases hc : c = sep
    · subst hc
      simp only [if_true]
      rcases hs : splitSegs c cs with _ | ⟨s, ss⟩
      · exact absurd hs (splitSegs_ne_nil c cs)
      · rw [hs] at ih
        rw [joinSegs_cons_cons, List.nil_append, ih]
    · simp only [hc, if_false]
      rcases hs : splitSegs sep cs with _ | ⟨s, ss⟩
      · exact absurd hs (splitSegs_ne_nil sep cs)
      · rw [hs] at ih
        cases ss with
        | nil => simpa [joinSegs] using congrArg (c :: ·) ih
        | cons t ts =>
          rw [joinSegs_cons_cons] at ih ⊢
          simpa using congrArg (c :: ·) ih

theorem cleanSegsAux_good {ss : List (List Char)} (rooted : Bool) (acc : List (List Char))
    (h : ss.all goodSeg = true) :
    cleanSegsAux rooted acc ss = acc.reverse ++ ss := by
  induction ss generalizing acc with
  | nil => simp [cleanSegsAux]
  | cons s rest ih =>
    simp only [List.all_cons, Bool.and_eq_true] at h
    have h1 : ¬(s = [] ∨ s = ['.']) := by
      rintro (rfl | rfl) <;> exact absurd h.1 (by decide)
    have h2 : s ≠ ['.', '.'] := by
      rintro rfl; exact absurd h.1 (by decide)
    simp only [cleanSegsAux]
    rw [if_neg h1, if_neg h2, ih _ h.2]
    simp

theorem cleanSegsAux_skip (rooted : Bool) (acc : List (List Char)) (rest : List (List Char)) :
    cleanSegsAux rooted acc ([] :: rest) = cleanSegsAux rooted acc rest := by
  simp [cleanSegsAux]

/-! ### Parsing well-formed repository URLs -/

theorem all_mono {p q : Char → Bool} {l : List Char} (himp : ∀ c, p c = true → q c = true)
    (h : l.all p = true) : l.all q = true := by
  simp only [List.all_eq_true] at *
  exact fun c hc => himp c (h c hc)

theorem any_false_of_all_not {p : Char → Bool} {l : List Char}
    (h : l.all (fun c => !p c) = true) : l.any p = false := by
  simp only [List.all_eq_true, Bool.not_eq_true'] at h
  simp only [List.any_eq_false]
  exact fun x hx => by simp [h x hx]

theorem goodUrlChar_spec {c : Char} (h : goodUrlChar c = true) :
    isCtlChar c = false ∧ (c == '#') = false ∧ (c == '?') = false ∧ (c == ':') = false ∧
      (c == '/') = false ∧ (c == '@') = false := by
  simp only [goodUrlChar, Bool.and_eq_true, Bool.not_eq_true'] at h
  refine ⟨h.1, ?_, ?_, ?_, ?_, ?_⟩
  all_goals
    rw [beq_eq_false_iff_ne]
    rintro rfl
    exact absurd h.2 (by decide)

theorem pathChar_case {c : Char} (hc : (goodUrlChar c || c == '/') = true) :
    goodUrlChar c = true ∨ c = '/' := by
  simpa using hc

theorem all_of_segs_all {sep : Char} {p : Char → Bool} {l : List Char}
    (h : (splitSegs sep l).all (fun seg => seg.all p) = true) :
    l.all (fun c => p c || c == sep) = true := by
  induction l with
  | nil => simp
  | cons c cs ih =>
    by_cases hc : c = sep
    · rw [show splitSegs sep (c :: cs) = [] :: splitSegs sep cs by simp [splitSegs, hc]] at h
      simp only [List.all_cons, List.all_nil, Bool.and_eq_true, true_and] at h ⊢
      exact ⟨by simp [hc], ih h⟩
    · rcases hs : splitSegs sep cs with _ | ⟨sg, ss⟩
      · exact absurd hs (splitSegs_ne_nil sep cs)
      · rw [show splitSegs sep (c :: cs) = (c :: sg) :: ss by simp [splitSegs, hc, hs]] at h
        simp only [List.all_cons, Bool.and_eq_true] at h ⊢
        refine ⟨by simp [h.1.1], ih ?_⟩
        rw [hs]
        simp only [List.all_cons, Bool.and_eq_true]
        exact ⟨h.1.2, h.2⟩

theorem urlParseChars_http (hl pl : List Char)
    (hhc : hl.all goodUrlChar = true)
    (hpc : pl.all (fun c => goodUrlChar c || c == '/') = true) :
    urlParseChars (['h', 't', 't', 'p', ':', '/', '/'] ++ hl ++ '/' :: pl) =
      .ok { scheme := "http", opq := "", host := ⟨hl⟩, path := ⟨'/' :: pl⟩ } := by
  have hlHash : hl.all (fun c => !(c == '#')) = true :=
    all_mono (fun c hc => by simp [(goodUrlChar_spec hc).2.1]) hhc
  have plHash : pl.all (fun c => !(c == '#')) = true :=
    all_mono (fun c hc => by
      rcases pathChar_case hc with h | rfl
      · simp [(goodUrlChar_spec h).2.1]
      · decide) hpc
  have hlQ : hl.all (fun c => !(c == '?')) = true :=
    all_mono (fun c hc => by simp [(goodUrlChar_spec hc).2.2.1]) hhc
  have plQ : pl.all (fun c => !(c == '?')) = true :=
    all_mono (fun c hc => by
      rcases pathChar_case hc with h | rfl
      · simp [(goodUrlChar_spec h).2.2.1]
      · decide) hpc
  have hlCtl : hl.all (fun c => !isCtlChar c) = true :=
    all_mono (fun c hc => by simp [(goodUrlChar_spec hc).1]) hhc
  have plCtl : pl.all (fun c => !isCtlChar c) = true :=
    all_mono (fun c hc => by
      rcases pathChar_case hc with h | rfl
      · simp [(goodUrlChar_spec h).1]
      · decide) hpc
  have hlSlash : hl.all (fun c => !(c == '/')) = true :=
    all_mono (fun c hc => by simp [(goodUrlChar_spec hc).2.2.2.2.1]) hhc
  have hlAt : hl.all (fun c => !(c == '@')) = true :=
    all_mono (fun c hc => by simp [(goodUrlChar_spec hc).2.2.2.2.2]) hhc
  have hS : (['h', 't', 't', 'p', ':', '/', '/'] ++ hl ++ '/' :: pl) =
      'h' :: 't' :: 't' :: 'p' :: ':' :: '/' :: '/' :: (hl ++ '/' :: pl) := by
    simp
  have hHashAll : ('h' :: 't' :: 't' :: 'p' :: ':' :: '/' :: '/' :: (hl ++ '/' :: pl)).all
      (fun c => !(c == '#')) = true := by
    simp only [List.all_cons, List.all_append, hlHash, List.all_cons, plHash]
    decide
  have hCtlAny : (('h' :: 't' :: 't' :: 'p' :: ':' :: '/' :: '/' :: (hl ++ '/' :: pl)).any
      isCtlChar) = false := by
    simp only [List.any_cons, List.any_append, any_false_of_all_not hlCtl,
      any_false_of_all_not plCtl]
    decide
  have hScheme : getSchemeAux [] ('h' :: 't' :: 't' :: 'p' :: ':' :: '/' :: '/' :: (hl ++ '/' :: pl)) =
      .ok (some (['h', 't', 't', 'p'], '/' :: '/' :: (hl ++ '/' :: pl))) := rfl
  have hQAll : ('/' :: '/' :: (hl ++ '/' :: pl)).all (fun c => !(c == '?')) = true := by
    simp only [List.all_cons, List.all_append, hlQ, List.all_cons, plQ]
    decide
  have hAuth : breakAt (fun c => c == '/') (hl ++ '/' :: pl) = (hl, '/' :: pl) := by
    rw [breakAt_append_all _ hlSlash, breakAt_cons_pos _ rfl]
    simp
  have hAt : breakAt (fun c => c == '@') hl.reverse = (hl.reverse, []) := by
    exact breakAt_all (by rw [List.all_reverse]; exact hlAt)
  rw [hS, urlParseChars, breakAt_all hHashAll]
  dsimp only
  rw [urlParseAfterFrag, if_neg (by rw [hCtlAny]; exact Bool.false_ne_true), hScheme]
  dsimp only
  rw [urlParseRest, breakAt_all hQAll]
  dsimp only
  rw [urlParseNoQuery, if_neg (by simp), if_neg (by simp), if_pos ⟨Or.inl (by simp), rfl⟩]
  dsimp only [List.tail_cons]
  rw [hAuth]
  dsimp only
  rw [hAt]
  dsimp only
  rw [List.reverse_reverse]
  have hmap : List.map Char.toLower ['h', 't', 't', 'p'] = "http".data := by decide
  rw [hmap]

theorem cleanSegsAux_push {s : List Char} (rooted : Bool) (acc rest : List (List Char))
    (h : goodSeg s = true) :
    cleanSegsAux rooted acc (s :: rest) = cleanSegsAux rooted (s :: acc) rest := by
  have h1 : ¬(s = [] ∨ s = ['.']) := by
    rintro (rfl | rfl) <;> exact absurd h (by decide)
  have h2 : s ≠ ['.', '.'] := by
    rintro rfl; exact absurd h (by decide)
  simp only [cleanSegsAux]
  rw [if_neg h1, if_neg h2]

theorem urlParseChars_plainHost (hl : List Char) (hhc : hl.all goodUrlChar = true) :
    urlParseChars hl = .ok { scheme := "", opq := "", host := "", path := ⟨hl⟩ } := by
  have hlHash : hl.all (fun c => !(c == '#')) = true :=
    all_mono (fun c hc => by simp [(goodUrlChar_spec hc).2.1]) hhc
  have hlQ : hl.all (fun c => !(c == '?')) = true :=
    all_mono (fun c hc => by simp [(goodUrlChar_spec hc).2.2.1]) hhc
  have hlCtl : hl.all (fun c => !isCtlChar c) = true :=
    all_mono (fun c hc => by simp [(goodUrlChar_spec hc).1]) hhc
  have hlColon : hl.all (fun c => !(c == ':')) = true :=
    all_mono (fun c hc => by simp [(goodUrlChar_spec hc).2.2.2.1]) hhc
  have hlSlash : hl.all (fun c => !(c == '/')) = true :=
    all_mono (fun c hc => by simp [(goodUrlChar_spec hc).2.2.2.2.1]) hhc
  have hHead : hl.head? ≠ some '/' := head?_ne_of_all hlSlash
  have hS2 : hasSlash2 hl = false := by
    rw [hasSlash2, beq_eq_false_iff_ne.mpr hHead, Bool.false_and]
  rw [urlParseChars, breakAt_all hlHash]
  dsimp only
  rw [urlParseAfterFrag, if_neg (by rw [any_false_of_all_not hlCtl]; exact Bool.false_ne_true),
    getSchemeAux_no_colon [] hlColon]
  dsimp only
  rw [urlParseRest, breakAt_all hlQ]
  dsimp only
  rw [urlParseNoQuery, if_neg (by simp), if_neg (by
      rw [breakAt_all hlSlash]
      simp [any_false_of_all_not hlColon]),
    if_neg (by simp [hS2])]

theorem urlJoinPath_good (hl pl : List Char)
    (hseg : goodSeg hl = true) (hhc : hl.all goodUrlChar = true)
    (hsegs : (splitSegs '/' pl).all goodSeg = true) (hlast : ¬ pl.getLast? = some '/') :
    urlJoinPath ⟨hl⟩ ⟨'/' :: pl⟩ = .ok ⟨hl ++ '/' :: pl⟩ := by
  have hpl : pl ≠ [] := by
    rintro rfl
    exact absurd hsegs (by decide)
  have hlColon : hl.all (fun c => !(c == ':')) = true :=
    all_mono (fun c hc => by simp [(goodUrlChar_spec hc).2.2.2.1]) hhc
  have hlSlash : hl.all (fun c => !(c == '/')) = true :=
    all_mono (fun c hc => by simp [(goodUrlChar_spec hc).2.2.2.2.1]) hhc
  have hHead : hl.head? ≠ some '/' := head?_ne_of_all hlSlash
  have hJoin : pathJoinChars [('/' :: hl), ('/' :: pl)] = '/' :: (hl ++ '/' :: pl) := by
    rw [show pathJoinChars [('/' :: hl), ('/' :: pl)]
        = pathCleanChars (joinSegs '/' [('/' :: hl), ('/' :: pl)]) from rfl]
    have hjs : joinSegs '/' [('/' :: hl), ('/' :: pl)] = '/' :: (hl ++ '/' :: '/' :: pl) := by
      rw [joinSegs_cons_cons, show joinSegs '/' [('/' :: pl)] = '/' :: pl from rfl]
      simp
    rw [hjs, pathCleanChars, if_neg (by simp)]
    dsimp only
    have hsplit : splitSegs '/' ('/' :: (hl ++ '/' :: '/' :: pl)) =
        [] :: hl :: [] :: splitSegs '/' pl := by
      rw [show splitSegs '/' ('/' :: (hl ++ '/' :: '/' :: pl)) =
          [] :: splitSegs '/' (hl ++ '/' :: '/' :: pl) by simp [splitSegs]]
      rw [splitSegs_append_all _ hlSlash]
      rw [show splitSegs '/' ('/' :: pl) = [] :: splitSegs '/' pl by simp [splitSegs]]
    rw [hsplit]
    rw [cleanSegsAux_skip, cleanSegsAux_push _ _ _ hseg, cleanSegsAux_skip,
      cleanSegsAux_good _ _ hsegs]
    rcases hsp : splitSegs '/' pl with _ | ⟨s, ss⟩
    · exact absurd hsp (splitSegs_ne_nil '/' pl)
    · rw [List.reverse_cons, List.reverse_nil, List.nil_append, List.singleton_append]
      rw [joinSegs_cons_cons, ← hsp, joinSegs_splitSegs]
      rw [if_pos (show ('/' :: (hl ++ '/' :: '/' :: pl)).head? = some '/' from rfl)]
      rw [if_neg (show ¬(hl ++ '/' :: pl = []) by simp)]
  have hlastCons : ('/' :: pl).getLast? ≠ some '/' := by
    rcases pl with _ | ⟨q, qs⟩
    · exact absurd rfl hpl
    · rw [List.getLast?_cons_cons]
      exact hlast
  rw [urlJoinPath, urlParse, urlParseChars_plainHost hl hhc]
  dsimp only
  rw [if_pos hHead, hJoin]
  dsimp only [List.drop_succ_cons, List.drop_zero]
  rw [if_neg (by
    rintro ⟨h1, -⟩
    exact hlastCons h1)]
  have hbreak : breakAt (fun c => c == '/') (hl ++ '/' :: pl) = (hl, '/' :: pl) := by
    rw [breakAt_append_all _ hlSlash, breakAt_cons_pos _ rfl]
    simp
  rw [urlString]
  dsimp only
  simp [hbreak, any_false_of_all_not hlColon]

/-! ### Behaviour of the shared source-derivation helper -/

theorem addSources_eventType (g : GiteaEventTagged) (ev : CDEvent) :
    (addSourcesFromRepositoryUrl g ev).eventType = ev.eventType := by
  unfold addSourcesFromRepositoryUrl
  cases urlParse g.repoHtmlUrl with
  | error e => rfl
  | ok u =>
    dsimp only
    cases urlJoinPath u.host u.path with
    | error e => rfl
    | ok ss => rfl

theorem addSources_source (g : GiteaEventTagged) (ev : CDEvent) (h1 : ev.source = "") :
    (addSourcesFromRepositoryUrl g ev).source = (derivedSources g.repoHtmlUrl).1 := by
  unfold addSourcesFromRepositoryUrl derivedSources
  cases urlParse g.repoHtmlUrl with
  | error e => exact h1
  | ok u =>
    dsimp only
    cases urlJoinPath u.host u.path with
    | error e => rfl
    | ok ss => rfl

theorem addSources_subjectSource (g : GiteaEventTagged) (ev : CDEvent)
    (h2 : ev.subjectSource = "") :
    (addSourcesFromRepositoryUrl g ev).subjectSource = (derivedSources g.repoHtmlUrl).2 := by
  unfold addSourcesFromRepositoryUrl derivedSources
  cases urlParse g.repoHtmlUrl with
  | error e => exact h2
  | ok u =>
    dsimp only
    cases urlJoinPath u.host u.path with
    | error e => exact h2
    | ok ss => rfl

theorem data_http_concat (host pth : String) :
    ("http://" ++ host ++ "/" ++ pth).data =
      ['h', 't', 't', 'p', ':', '/', '/'] ++ host.data ++ '/' :: pth.data := by
  obtain ⟨hd⟩ := host
  obtain ⟨pd⟩ := pth
  show (("http://".data ++ hd) ++ "/".data) ++ pd = _
  simp [List.append_assoc]

theorem urlParse_http (host pth : String)
    (hhc : host.data.all goodUrlChar = true)
    (hpc : pth.data.all (fun c => goodUrlChar c || c == '/') = true) :
    urlParse ("http://" ++ host ++ "/" ++ pth) =
      .ok { scheme := "http", opq := "", host := host, path := ⟨'/' :: pth.data⟩ } := by
  rw [urlParse, data_http_concat, urlParseChars_http host.data pth.data hhc hpc]

theorem addSources_http (g : GiteaEventTagged) (ev : CDEvent) (host pth : String)
    (hurl : g.repoHtmlUrl = "http://" ++ host ++ "/" ++ pth)
    (hhost : goodHostStr host = true) (hpath : goodPathStr pth = true) :
    addSourcesFromRepositoryUrl g ev =
      { ev with source := host, subjectSource := host ++ "/" ++ pth } := by
  have hseg : goodSeg host.data = true := by
    simp only [goodHostStr, Bool.and_eq_true] at hhost
    exact hhost.1
  have hhc : host.data.all goodUrlChar = true := by
    simp only [goodHostStr, Bool.and_eq_true] at hhost
    exact hhost.2
  have hsegsBoth : (splitSegs '/' pth.data).all (fun seg => goodSeg seg && seg.all goodUrlChar)
      = true := by
    simp only [goodPathStr, Bool.and_eq_true] at hpath
    exact hpath.1
  have hsegs : (splitSegs '/' pth.data).all goodSeg = true := by
    simp only [List.all_eq_true] at hsegsBoth ⊢
    intro seg hs
    have hb := hsegsBoth seg hs
    rw [Bool.and_eq_true] at hb
    exact hb.1
  have hpc : pth.data.all (fun c => goodUrlChar c || c == '/') = true := by
    refine all_of_segs_all ?_
    simp only [List.all_eq_true] at hsegsBoth ⊢
    intro seg hs
    have hb := hsegsBoth seg hs
    rw [Bool.and_eq_true] at hb
    simpa using hb.2
  have hlast : ¬ pth.data.getLast? = some '/' := by
    simp only [goodPathStr, Bool.and_eq_true, Bool.not_eq_true', beq_eq_false_iff_ne] at hpath
    exact hpath.2
  have hjoin : urlJoinPath host ⟨'/' :: pth.data⟩ = .ok ⟨host.data ++ '/' :: pth.data⟩ := by
    have := urlJoinPath_good host.data pth.data hseg hhc hsegs hlast
    simpa using this
  have hcat : (host ++ "/" ++ pth).data = host.data ++ '/' :: pth.data := by
    obtain ⟨hd⟩ := host
    obtain ⟨pd⟩ := pth
    show ((hd ++ "/".data) ++ pd) = _
    simp
  rw [addSourcesFromRepositoryUrl, hurl, urlParse_http host pth hhc hpc]
  dsimp only
  rw [hjoin]
  dsimp only
  congr 1
  apply String.ext
  rw [hcat]

/-! ### Fixtures for the `Process` claims.

Payloads are `String`s, events are `Nat`s; `goJsonAlwaysOk` instantiates
the `json.Unmarshal` behaviour on the valid JSON-object payloads used
below, `goJsonOnNotJson` its behaviour on the payload `"not json"`
(where Go's `json.Unmarshal` fails with the recorded message). -/

def okMetadata : MsgMetadata :=
  { streamSeq := 1, consumerSeq := 1, numDelivered := 1,
    stream := "cdevents-adapter-webhooks", consumer := "cdevents-adapter" }

def goJsonAlwaysOk : String → Option String := fun _ => none

def goJsonOnNotJson : String → Option String := fun d =>
  if d = "not json" then some "invalid character 'o' in literal null (expecting 'u')" else none

def testTranslator : String → Except String Nat := fun _ => .ok 7

def testAdapter : CDEventAdapter String Nat :=
  { translators := fun k => if k = "test.event" then some testTranslator else none,
    publisher := fun _ => none }

/-! ### C1 — routing to the registered translator -/

def c1Msg : JetstreamMsg String :=
  { subject := "webhook.test.event", data := "{}",
    metadataResult := .error "nats: message is not a JetStream message" }

/-- C1 (counterexample): a message whose routing subject has three
segments and whose routing key `test.event` is registered, but whose
metadata extraction fails, is returned early by `Process` and its
translator is never invoked — so the claim does not hold for every such
message. -/
theorem process_registered_translator_counterexample :
    2 ≤ (subjectParts c1Msg.subject).length ∧
    (testAdapter.translators (routingKey c1Msg.subject)).isSome = true ∧
    (CDEventAdapter.process goJsonAlwaysOk testAdapter c1Msg).translateCalls = [] := by
  decide

/-- C1 (amended): for every inbound message whose metadata extraction
and initial JSON unmarshal succeed, whose routing subject has at least
two dot-separated segments and whose routing key is registered,
`Process` invokes exactly the translator registered for that key,
exactly once, with the unmodified payload. -/
theorem process_invokes_registered_translator {D E : Type}
    (jsonUnmarshalMapErr : D → Option String) (adapter : CDEventAdapter D E)
    (msg : JetstreamMsg D) (m : MsgMetadata) (tr : D → Except String E)
    (hm : msg.metadataResult = .ok m) (hj : jsonUnmarshalMapErr msg.data = none)
    (hs : 2 ≤ (subjectParts msg.subject).length)
    (ht : adapter.translators (routingKey msg.subject) = some tr) :
    (CDEventAdapter.process jsonUnmarshalMapErr adapter msg).translateCalls
      = [(routingKey msg.subject, msg.data)] := by
  rw [CDEventAdapter.process, hm]
  dsimp only
  rw [hj]
  dsimp only
  rw [if_neg (by omega), ht]
  dsimp only
  cases htr : tr msg.data with
  | error e => rfl
  | ok ev =>
    dsimp only
    cases adapter.publisher ev <;> rfl

def c1wMsg : JetstreamMsg String :=
  { subject := "webhook.test.event", data := "{}",
    metadataResult := .ok okMetadata }

/-- C1 (witness): on the adapter test's happy-path message the amended
theorem yields the single translator call with the unmodified payload. -/
theorem process_invokes_registered_translator_witness :
    (CDEventAdapter.process goJsonAlwaysOk testAdapter c1wMsg).translateCalls
      = [("test.event", "{}")] := by
  have h := process_invokes_registered_translator goJsonAlwaysOk testAdapter c1wMsg
    okMetadata testTranslator rfl rfl (by decide) rfl
  exact h.trans (by decide)

/-! ### C2 — publishing the translated event -/

/-- C2: whenever translation of an inbound message succeeds, `Process`
invokes `Publisher.Publish` exactly once, with exactly the event value
returned by the translator, and with no other event. -/
theorem process_publishes_translated_event {D E : Type}
    (jsonUnmarshalMapErr : D → Option String) (adapter : CDEventAdapter D E)
    (msg : JetstreamMsg D) (m : MsgMetadata) (tr : D → Except String E) (ev : E)
    (hm : msg.metadataResult = .ok m) (hj : jsonUnmarshalMapErr msg.data = none)
    (hs : 2 ≤ (subjectParts msg.subject).length)
    (ht : adapter.translators (routingKey msg.subject) = some tr)
    (htr : tr msg.data = .ok ev) :
    (CDEventAdapter.process jsonUnmarshalMapErr adapter msg).publishCalls = [ev] := by
  rw [CDEventAdapter.process, hm]
  dsimp only
  rw [hj]
  dsimp only
  rw [if_neg (by omega), ht]
  dsimp only
  rw [htr]
  dsimp only
  cases adapter.publisher ev <;> rfl

/-- C2 (witness): on the happy-path message exactly the translated event
`7` is published. -/
theorem process_publishes_translated_event_witness :
    (CDEventAdapter.process goJsonAlwaysOk testAdapter c1wMsg).publishCalls = [7] := by
  exact process_publishes_translated_event goJsonAlwaysOk testAdapter c1wMsg
    okMetadata testTranslator 7 rfl rfl (by decide) rfl rfl

/-! ### C3 — unconditional acknowledgment -/

/-- C3: `Process` acknowledges the inbound message on every return path,
regardless of outcome — the deferred `msg.Ack()` runs after metadata
failures, routing failures, translation failures and publish failures
alike. -/
theorem process_always_acks {D E : Type} (jsonUnmarshalMapErr : D → Option String)
    (adapter : CDEventAdapter D E) (msg : JetstreamMsg D) :
    (CDEventAdapter.process jsonUnmarshalMapErr adapter msg).acked = true := by
  rw [CDEventAdapter.process]
  cases hm : msg.metadataResult with
  | error e => rfl
  | ok m =>
    dsimp only
    cases hj : jsonUnmarshalMapErr msg.data with
    | some e => rfl
    | none =>
      dsimp only
      by_cases hlen : (subjectParts msg.subject).length < 2
      · rw [if_pos hlen]
      · rw [if_neg hlen]
        cases ht : adapter.translators (routingKey msg.subject) with
        | none => rfl
        | some tr =>
          dsimp only
          cases htr : tr msg.data with
          | error e => rfl
          | ok ev =>
            dsimp only
            cases adapter.publisher ev <;> rfl

/-! ### C4 — metadata-extraction failure -/

def c4Msg : JetstreamMsg String :=
  { subject := "webhook.gitea.push", data := "{}",
    metadataResult := .error "nats: message is not a JetStream message" }

/-- C4 (counterexample): when metadata extraction fails `Process` does
surface that error, but the message is still acknowledged (the deferred
`msg.Ack()` is the first statement of `Process`, before the `Metadata()`
call), contradicting the claim that no acknowledgment happens. -/
theorem process_metadata_failure_counterexample :
    (CDEventAdapter.process goJsonAlwaysOk testAdapter c4Msg).result
      = some "nats: message is not a JetStream message" ∧
    (CDEventAdapter.process goJsonAlwaysOk testAdapter c4Msg).acked = true := by
  decide

/-- C4 (amended): if extraction of delivery metadata fails, `Process`
surfaces that error and performs no translation or publication, but the
deferred acknowledgment still acknowledges the message, so the broker
will not redeliver it. -/
theorem process_metadata_failure_behavior {D E : Type}
    (jsonUnmarshalMapErr : D → Option String) (adapter : CDEventAdapter D E)
    (msg : JetstreamMsg D) (e : String) (hm : msg.metadataResult = .error e) :
    (CDEventAdapter.process jsonUnmarshalMapErr adapter msg).result = some e ∧
    (CDEventAdapter.process jsonUnmarshalMapErr adapter msg).acked = true ∧
    (CDEventAdapter.process jsonUnmarshalMapErr adapter msg).translateCalls = [] ∧
    (CDEventAdapter.process jsonUnmarshalMapErr adapter msg).publishCalls = [] := by
  rw [CDEventAdapter.process, hm]
  exact ⟨rfl, rfl, rfl, rfl⟩

/-- C4 (witness): the amended behaviour at the concrete failing message. -/
theorem process_metadata_failure_behavior_witness :
    (CDEventAdapter.process goJsonAlwaysOk testAdapter c4Msg).result
      = some "nats: message is not a JetStream message" ∧
    (CDEventAdapter.process goJsonAlwaysOk testAdapter c4Msg).acked = true ∧
    (CDEventAdapter.process goJsonAlwaysOk testAdapter c4Msg).translateCalls = [] ∧
    (CDEventAdapter.process goJsonAlwaysOk testAdapter c4Msg).publishCalls = [] :=
  process_metadata_failure_behavior goJsonAlwaysOk testAdapter c4Msg
    "nats: message is not a JetStream message" rfl

/-! ### C5 — routing subjects with fewer than two segments -/

def c5Msg : JetstreamMsg String :=
  { subject := "webhook", data := "not json", metadataResult := .ok okMetadata }

/-- C5 (counterexample): a one-segment subject whose payload is not
valid JSON fails with the `json.Unmarshal` error from the undocumented
JSON validity pre-check, not with the "too few parts" error — so not
every short-subject message fails with the claimed error. -/
theorem process_short_subject_counterexample :
    (subjectParts c5Msg.subject).length < 2 ∧
    (CDEventAdapter.process goJsonOnNotJson testAdapter c5Msg).result ≠
      some ("unable to determine type of message as subject has to few parts: " ++ c5Msg.subject) ∧
    (CDEventAdapter.process goJsonOnNotJson testAdapter c5Msg).result
      = some "invalid character 'o' in literal null (expecting 'u')" := by
  decide

/-- C5 (amended): for every inbound message whose routing subject splits
on `.` into fewer than two segments, `Process` fails with the "too few
parts" error provided metadata extraction and the initial JSON unmarshal
succeed; in all cases such a message never reaches any translator or the
publisher. -/
theorem process_short_subject_behavior :
    (∀ {D E : Type} (jsonUnmarshalMapErr : D → Option String) (adapter : CDEventAdapter D E)
        (msg : JetstreamMsg D) (m : MsgMetadata),
      msg.metadataResult = .ok m → jsonUnmarshalMapErr msg.data = none →
      (subjectParts msg.subject).length < 2 →
      (CDEventAdapter.process jsonUnmarshalMapErr adapter msg).result
        = some ("unable to determine type of message as subject has to few parts: "
            ++ msg.subject)) ∧
    (∀ {D E : Type} (jsonUnmarshalMapErr : D → Option String) (adapter : CDEventAdapter D E)
        (msg : JetstreamMsg D),
      (subjectParts msg.subject).length < 2 →
      (CDEventAdapter.process jsonUnmarshalMapErr adapter msg).translateCalls = [] ∧
      (CDEventAdapter.process jsonUnmarshalMapErr adapter msg).publishCalls = []) := by
  constructor
  · intro D E jsonUnmarshalMapErr adapter msg m hm hj hlen
    rw [CDEventAdapter.process, hm]
    dsimp only
    rw [hj]
    dsimp only
    rw [if_pos hlen]
  · intro D E jsonUnmarshalMapErr adapter msg hlen
    rw [CDEventAdapter.process]
    cases hm : msg.metadataResult with
    | error e => exact ⟨rfl, rfl⟩
    | ok m =>
      dsimp only
      cases hj : jsonUnmarshalMapErr msg.data with
      | some e => exact ⟨rfl, rfl⟩
      | none =>
        dsimp only
        rw [if_pos hlen]
        exact ⟨rfl, rfl⟩

def c5wMsg : JetstreamMsg String :=
  { subject := "webhook", data := "{}", metadataResult := .ok okMetadata }

/-- C5 (witness): the amended behaviour at a concrete one-segment
subject with a valid JSON payload. -/
theorem process_short_subject_behavior_witness :
    (CDEventAdapter.process goJsonAlwaysOk testAdapter c5wMsg).result
      = some "unable to determine type of message as subject has to few parts: webhook" ∧
    (CDEventAdapter.process goJsonAlwaysOk testAdapter c5wMsg).translateCalls = [] ∧
    (CDEventAdapter.process goJsonAlwaysOk testAdapter c5wMsg).publishCalls = [] := by
  refine ⟨?_, ?_, ?_⟩
  · exact (process_short_subject_behavior.1 goJsonAlwaysOk testAdapter c5wMsg okMetadata
      rfl rfl (by decide)).trans (by decide)
  · exact (process_short_subject_behavior.2 goJsonAlwaysOk testAdapter c5wMsg (by decide)).1
  · exact (process_short_subject_behavior.2 goJsonAlwaysOk testAdapter c5wMsg (by decide)).2

/-! ### C6 — unknown routing keys -/

def c6Msg : JetstreamMsg String :=
  { subject := "webhook.test.foo", data := "{}",
    metadataResult := .error "nats: message is not a JetStream message" }

/-- C6 (counterexample): a message whose routing key `test.foo` is
absent from the registry but whose metadata extraction fails is returned
with the metadata error, not with the "no translator found" error — so
not every unknown-key message fails with the claimed error. -/
theorem process_unknown_key_counterexample :
    (testAdapter.translators (routingKey c6Msg.subject)).isNone = true ∧
    (CDEventAdapter.process goJsonAlwaysOk testAdapter c6Msg).result ≠
      some ("no translator found for subject: " ++ routingKey c6Msg.subject) ∧
    (CDEventAdapter.process goJsonAlwaysOk testAdapter c6Msg).result
      = some "nats: message is not a JetStream message" := by
  decide

/-- C6 (amended): for every inbound message whose routing subject has at
least two segments and whose routing key is absent from the registry,
`Process` fails with "no translator found for subject: `<key>`" provided
metadata extraction and the initial JSON unmarshal succeed; in all cases
a message with an unregistered routing key never reaches the publisher. -/
theorem process_unknown_key_behavior :
    (∀ {D E : Type} (jsonUnmarshalMapErr : D → Option String) (adapter : CDEventAdapter D E)
        (msg : JetstreamMsg D) (m : MsgMetadata),
      msg.metadataResult = .ok m → jsonUnmarshalMapErr msg.data = none →
      2 ≤ (subjectParts msg.subject).length →
      adapter.translators (routingKey msg.subject) = none →
      (CDEventAdapter.process jsonUnmarshalMapErr adapter msg).result
        = some ("no translator found for subject: " ++ routingKey msg.subject)) ∧
    (∀ {D E : Type} (jsonUnmarshalMapErr : D → Option String) (adapter : CDEventAdapter D E)
        (msg : JetstreamMsg D),
      adapter.translators (routingKey msg.subject) = none →
      (CDEventAdapter.process jsonUnmarshalMapErr adapter msg).publishCalls = []) := by
  constructor
  · intro D E jsonUnmarshalMapErr adapter msg m hm hj hlen hnone
    rw [CDEventAdapter.process, hm]
    dsimp only
    rw [hj]
    dsimp only
    rw [if_neg (by omega), hnone]
  · intro D E jsonUnmarshalMapErr adapter msg hnone
    rw [CDEventAdapter.process]
    cases hm : msg.metadataResult with
    | error e => rfl
    | ok m =>
      dsimp only
      cases hj : jsonUnmarshalMapErr msg.data with
      | some e => rfl
      | none =>
        dsimp only
        by_cases hlen : (subjectParts msg.subject).length < 2
        · rw [if_pos hlen]
        · rw [if_neg hlen, hnone]

def c6wMsg : JetstreamMsg String :=
  { subject := "webhook.test.foo", data := "{}",
    metadataResult := .ok okMetadata }

/-- C6 (witness): the amended behaviour at a concrete message whose
routing key `test.foo` is not registered. -/
theorem process_unknown_key_behavior_witness :
    (CDEventAdapter.process goJsonAlwaysOk testAdapter c6wMsg).result
      = some "no translator found for subject: test.foo" ∧
    (CDEventAdapter.process goJsonAlwaysOk testAdapter c6wMsg).publishCalls = [] := by
  refine ⟨?_, ?_⟩
  · exact (process_unknown_key_behavior.1 goJsonAlwaysOk testAdapter c6wMsg okMetadata
      rfl rfl (by decide) rfl).trans (by decide)
  · exact process_unknown_key_behavior.2 goJsonAlwaysOk testAdapter c6wMsg rfl

/-! ### C7 — the shared source derivation and the (non-)emptiness of fields -/

def c7EmptyPush : GiteaPushEvent :=
  { totalCommits := 1, commits := [{ id := "" }], headCommit := { id := "" },
    repository := { fullName := "", htmlUrl := "" } }

def c7EmptyEvent : CDEvent :=
  { eventType := .changeMerged, source := "", subjectId := "", subjectSource := "",
    subjectRepositoryId := some "",
    customData := some (.kindTagged "structs.GiteaPushEvent" (.push c7EmptyPush)) }

/-- C7 (counterexample): a push payload with an empty commit id and an
empty repository URL translates successfully into an event whose
`source`, `subjectId` and `subjectSource` are all empty — the claimed
non-emptiness invariant is not enforced by any translator. -/
theorem translator_nonempty_fields_counterexample :
    GiteaPushTranslator.translate c7EmptyPush = .ok c7EmptyEvent ∧
    c7EmptyEvent.source = "" ∧ c7EmptyEvent.subjectId = "" ∧
    c7EmptyEvent.subjectSource = "" := by
  decide

/-- C7 (amended): every event emitted by any of the four translators has
its `source` and `subjectSource` derived from the payload's repository
URL by the one shared helper `addSourcesFromRepositoryUrl`
(`source` = URL host, `subjectSource` = host joined with path, fields
left empty when parsing or joining fails), so the two fields are
mutually consistent; non-emptiness of `source`, `subjectId` and
`subjectSource` is not guaranteed. -/
theorem translators_shared_source_derivation :
    (∀ (e : GiteaPushEvent) (ev : CDEvent), GiteaPushTranslator.translate e = .ok ev →
      ev.source = (derivedSources e.repository.htmlUrl).1 ∧
      ev.subjectSource = (derivedSources e.repository.htmlUrl).2) ∧
    (∀ (e : GiteaPullRequestEvent) (ev : CDEvent),
      GiteaPullRequestTranslator.translate e = .ok ev →
      ev.source = (derivedSources e.repository.htmlUrl).1 ∧
      ev.subjectSource = (derivedSources e.repository.htmlUrl).2) ∧
    (∀ (e : GiteaCreateEvent) (ev : CDEvent), GiteaCreateTranslator.translate e = .ok ev →
      ev.source = (derivedSources e.repository.htmlUrl).1 ∧
      ev.subjectSource = (derivedSources e.repository.htmlUrl).2) ∧
    (∀ (e : GiteaDeleteEvent) (ev : CDEvent), GiteaDeleteTranslator.translate e = .ok ev →
      ev.source = (derivedSources e.repository.htmlUrl).1 ∧
      ev.subjectSource = (derivedSources e.repository.htmlUrl).2) := by
  refine ⟨?_, ?_, ?_, ?_⟩
  · intro e ev h
    rw [GiteaPushTranslator.translate] at h
    by_cases ht : e.totalCommits = 0
    · rw [if_pos ht] at h
      simp at h
    · rw [if_neg ht] at h
      cases hc : e.commits with
      | nil =>
        rw [hc] at h
        simp at h
      | cons c cs =>
        rw [hc] at h
        dsimp only [addGiteaEventAsCustomData] at h
        cases h
        constructor
        · dsimp only
          rw [addSources_source _ _ rfl]
          rfl
        · dsimp only
          rw [addSources_subjectSource _ _ rfl]
          rfl
  · intro e ev h
    rw [GiteaPullRequestTranslator.translate] at h
    by_cases h1 : e.action = "opened"
    · rw [if_pos h1] at h
      dsimp only [addGiteaEventAsCustomData] at h
      cases h
      exact ⟨by dsimp only; rw [addSources_source _ _ rfl]; rfl,
             by dsimp only; rw [addSources_subjectSource _ _ rfl]; rfl⟩
    · rw [if_neg h1] at h
      by_cases h2 : e.action = "closed"
      · rw [if_pos h2] at h
        dsimp only [addGiteaEventAsCustomData] at h
        cases h
        exact ⟨by dsimp only; rw [addSources_source _ _ rfl]; rfl,
               by dsimp only; rw [addSources_subjectSource _ _ rfl]; rfl⟩
      · rw [if_neg h2] at h
        simp at h
  · intro e ev h
    rw [GiteaCreateTranslator.translate] at h
    by_cases h1 : e.refType = "branch"
    · rw [if_pos h1] at h
      dsimp only [addGiteaEventAsCustomData] at h
      cases h
      exact ⟨by dsimp only; rw [addSources_source _ _ rfl]; rfl,
             by dsimp only; rw [addSources_subjectSource _ _ rfl]; rfl⟩
    · rw [if_neg h1] at h
      simp at h
  · intro e ev h
    rw [GiteaDeleteTranslator.translate] at h
    by_cases h1 : e.refType = "branch"
    · rw [if_pos h1] at h
      dsimp only [addGiteaEventAsCustomData] at h
      cases h
      exact ⟨by dsimp only; rw [addSources_source _ _ rfl]; rfl,
             by dsimp only; rw [addSources_subjectSource _ _ rfl]; rfl⟩
    · rw [if_neg h1] at h
      simp at h

def pushScenario : GiteaPushEvent :=
  { totalCommits := 1,
    commits := [{ id := "9d7b2d18bf7f315c666a4b3607f47bd452e7c8d2" }],
    headCommit := { id := "9d7b2d18bf7f315c666a4b3607f47bd452e7c8d2" },
    repository := { fullName := "yoloco/project1",
                    htmlUrl := "http://git.example.com/yoloco/project1" } }

def pushScenarioEvent : CDEvent :=
  { eventType := .changeMerged, source := "git.example.com",
    subjectId := "9d7b2d18bf7f315c666a4b3607f47bd452e7c8d2",
    subjectSource := "git.example.com/yoloco/project1",
    subjectRepositoryId := some "yoloco/project1",
    customData := some (.kindTagged "structs.GiteaPushEvent" (.push pushScenario)) }

/-- C7 (witness): the shared derivation evaluated on the spec's push
scenario (`git.example.com/yoloco/project1`). -/
theorem translators_shared_source_derivation_witness :
    GiteaPushTranslator.translate pushScenario = .ok pushScenarioEvent ∧
    pushScenarioEvent.source = (derivedSources pushScenario.repository.htmlUrl).1 ∧
    pushScenarioEvent.subjectSource = (derivedSources pushScenario.repository.htmlUrl).2 := by
  have htr : GiteaPushTranslator.translate pushScenario = .ok pushScenarioEvent := by decide
  exact ⟨htr, (translators_shared_source_derivation.1 pushScenario pushScenarioEvent htr).1,
    (translators_shared_source_derivation.1 pushScenario pushScenarioEvent htr).2⟩

/-! ### C8 — the push translator's event -/

def c8TwoCommits : GiteaPushEvent :=
  { totalCommits := 2, commits := [{ id := "aaa111" }, { id := "bbb222" }],
    headCommit := { id := "bbb222" },
    repository := { fullName := "yoloco/project1",
                    htmlUrl := "http://git.example.com/yoloco/project1" } }

def c8TwoCommitsEvent : CDEvent :=
  { eventType := .changeMerged, source := "git.example.com",
    subjectId := "aaa111",
    subjectSource := "git.example.com/yoloco/project1",
    subjectRepositoryId := some "yoloco/project1",
    customData := some (.kindTagged "structs.GiteaPushEvent" (.push c8TwoCommits)) }

/-- C8 (counterexample): on a push payload listing two commits whose
first listed commit differs from the head commit, the translator sets
`subjectId` to `Commits[0].Id` (`"aaa111"`), which is not the head
commit hash (`"bbb222"`) — so the subject id is not the head commit hash
for every payload with at least one commit. -/
theorem gitea_push_subject_id_counterexample :
    GiteaPushTranslator.translate c8TwoCommits = .ok c8TwoCommitsEvent ∧
    c8TwoCommitsEvent.subjectId = "aaa111" ∧
    c8TwoCommitsEvent.subjectId ≠ c8TwoCommits.headCommit.id := by
  decide

/-- C8 (amended): for every Gitea push payload with a non-zero
`total_commits`, a non-empty commits list and a plain
`http://<host>/<path>` repository URL — host and path segments made of
unreserved URL characters, so that `net/url` performs no escaping or
host-character rejection and the URL model agrees with the library —
the translator returns a change-merged event whose `subjectId` is the
id of the first listed commit (which equals the head commit hash for
single-commit pushes), whose `source` is the URL's host, whose
`subjectSource` is the host joined with the repository path, and whose
subject-content repository id is the repository full name. -/
theorem gitea_push_translate_first_commit (e : GiteaPushEvent) (c : GiteaCommit)
    (cs : List GiteaCommit) (host pth : String)
    (hcommits : e.commits = c :: cs) (htotal : e.totalCommits ≠ 0)
    (hurl : e.repository.htmlUrl = "http://" ++ host ++ "/" ++ pth)
    (hhost : goodHostStr host = true) (hpath : goodPathStr pth = true) :
    GiteaPushTranslator.translate e = .ok
      { eventType := .changeMerged, source := host, subjectId := c.id,
        subjectSource := host ++ "/" ++ pth,
        subjectRepositoryId := some e.repository.fullName,
        customData := some (.kindTagged "structs.GiteaPushEvent" (.push e)) } := by
  rw [GiteaPushTranslator.translate, if_neg htotal, hcommits]
  dsimp only [addGiteaEventAsCustomData]
  rw [addSources_http (.push e) _ host pth hurl hhost hpath]
  rfl

/-- C8 (witness): the amended theorem applied to the spec's scenario —
one commit pushed to `yoloco/project1` on host `git.example.com`. -/
theorem gitea_push_translate_first_commit_witness :
    GiteaPushTranslator.translate pushScenario = .ok pushScenarioEvent := by
  have h := gitea_push_translate_first_commit pushScenario
    { id := "9d7b2d18bf7f315c666a4b3607f47bd452e7c8d2" } []
    "git.example.com" "yoloco/project1" rfl (by decide) (by decide) (by decide) (by decide)
  exact h.trans (by decide)

/-! ### C9 — the pull-request translator's action dispatch -/

/-- C9: the pull-request translator returns a change-created event for
`action: opened` and a change-merged event for `action: closed`, in both
cases with subject id `pr-<pull request id>`; every other action value
fails with the translation error naming the unsupported value. -/
theorem gitea_pull_request_translate_actions :
    (∀ (e : GiteaPullRequestEvent), e.action = "opened" ∨ e.action = "closed" →
      ∃ ev, GiteaPullRequestTranslator.translate e = .ok ev ∧
        ev.eventType = (if e.action = "opened" then CDEventType.changeCreated
                        else CDEventType.changeMerged) ∧
        ev.subjectId = "pr-" ++ toString e.pullRequest.id) ∧
    (∀ (e : GiteaPullRequestEvent), e.action ≠ "opened" → e.action ≠ "closed" →
      GiteaPullRequestTranslator.translate e
        = .err ("unsupported Gitea Pull Request action: " ++ e.action)) := by
  constructor
  · intro e h
    rcases h with h | h
    · have htr : GiteaPullRequestTranslator.translate e =
          .ok { addSourcesFromRepositoryUrl (.pullRequest e)
                  { eventType := .changeCreated,
                    subjectRepositoryId := some e.repository.fullName } with
                subjectId := "pr-" ++ toString e.pullRequest.id,
                customData := some (.kindTagged "structs.GiteaPullRequestEvent"
                  (.pullRequest e)) } := by
        rw [GiteaPullRequestTranslator.translate, if_pos h]
        rfl
      refine ⟨_, htr, ?_, ?_⟩
      · dsimp only
        rw [addSources_eventType, if_pos h]
      · dsimp only
    · have h' : ¬ e.action = "opened" := by
        rw [h]; decide
      have htr : GiteaPullRequestTranslator.translate e =
          .ok { addSourcesFromRepositoryUrl (.pullRequest e)
                  { eventType := .changeMerged,
                    subjectRepositoryId := some e.repository.fullName } with
                subjectId := "pr-" ++ toString e.pullRequest.id,
                customData := some (.kindTagged "structs.GiteaPullRequestEvent"
                  (.pullRequest e)) } := by
        rw [GiteaPullRequestTranslator.translate, if_neg h', if_pos h]
        rfl
      refine ⟨_, htr, ?_, ?_⟩
      · dsimp only
        rw [addSources_eventType, if_neg h']
      · dsimp only
  · intro e h1 h2
    rw [GiteaPullRequestTranslator.translate, if_neg h1, if_neg h2]

def prOpenedScenario : GiteaPullRequestEvent :=
  { action := "opened", pullRequest := { id := 3 },
    repository := { fullName := "yoloco/project1",
                    htmlUrl := "http://git.example.com/yoloco/project1" } }

def prUnsupported : GiteaPullRequestEvent :=
  { action := "synchronized", pullRequest := { id := 3 },
    repository := { fullName := "yoloco/project1",
                    htmlUrl := "http://git.example.com/yoloco/project1" } }

/-- C9 (witness): the dispatch evaluated on the spec's `action: opened`
scenario (subject id `pr-3`) and on an unsupported action. -/
theorem gitea_pull_request_translate_actions_witness :
    (∃ ev, GiteaPullRequestTranslator.translate prOpenedScenario = .ok ev ∧
      ev.eventType = (if prOpenedScenario.action = "opened" then CDEventType.changeCreated
                      else CDEventType.changeMerged) ∧
      ev.subjectId = "pr-" ++ toString prOpenedScenario.pullRequest.id) ∧
    GiteaPullRequestTranslator.translate prUnsupported
      = .err ("unsupported Gitea Pull Request action: " ++ prUnsupported.action) :=
  ⟨gitea_pull_request_translate_actions.1 prOpenedScenario (Or.inl rfl),
   gitea_pull_request_translate_actions.2 prUnsupported (by decide) (by decide)⟩

/-! ### C10 — the unguarded `Commits[0]` access -/

/-- C10: the push translator's only guard before reading `Commits[0]` is
`TotalCommits == 0`; for every payload with a non-zero `total_commits`
and an empty commits list, the index access is out of bounds (a Go
runtime panic). -/
theorem gitea_push_empty_commits_out_of_range (e : GiteaPushEvent)
    (htotal : e.totalCommits ≠ 0) (hcommits : e.commits = []) :
    GiteaPushTranslator.translate e = .indexOutOfRange := by
  rw [GiteaPushTranslator.translate, if_neg htotal, hcommits]

def c10Push : GiteaPushEvent :=
  { totalCommits := 1, commits := [],
    headCommit := { id := "9d7b2d18bf7f315c666a4b3607f47bd452e7c8d2" },
    repository := { fullName := "yoloco/project1",
                    htmlUrl := "http://git.example.com/yoloco/project1" } }

/-- C10 (witness): a payload claiming one commit while listing none hits
the out-of-range access. -/
theorem gitea_push_empty_commits_out_of_range_witness :
    GiteaPushTranslator.translate c10Push = .indexOutOfRange :=
  gitea_push_empty_commits_out_of_range c10Push (by decide) rfl
